import Mathlib

/-!
Verification development for the zip-smith worker (`src/index.ts`).

The worker accepts a POST body listing `(url, filename)` pairs, validates
them against an allow-list, derives a SHA-256 cache key from the sorted
file set, and on a cache miss downloads every file concurrently and packs
the results into a ZIP archive.

Modelling conventions:
* JavaScript strings are Lean `String`s; a missing/falsy `url` or
  `filename` field is modelled as the empty string (the only falsy string).
* `body.files` being missing or not an array is modelled as `Option.none`.
* Byte buffers (`ArrayBuffer`) are `List Nat` (each entry one byte).
* The archive codec (`@zip.js/zip.js`) is a black box; an archive is
  modelled as its list of named members in the order the `add` calls were
  issued (the `ZipWriter` serialises concurrent adds in call order).
* Platform primitives reached by the code (`new URL`, the outbound
  `fetch`, the Cache API, the binary encoding a `ZipWriter` produces) are
  supplied by an `Oracle` record, so theorems quantify over their
  behaviour.
* `localeCompare` on URLs is modelled as code-point lexicographic
  comparison; JavaScript's `Array.prototype.sort` is stable, and the
  stable insertion sort below computes the same result for the same
  comparator, with ties keeping their original order in both.
* `crypto.subtle.digest('SHA-256', ...)` is implemented bit-faithfully
  below over `Nat` with explicit `% 2^32` wrap-around.
-/

namespace ZipSmith

/-- One entry of the request's `files` array: `{url, filename}`. -/
structure FileEntry where
  url : String
  filename : String
deriving DecidableEq, Repr

/-- Parsed POST body (`JarRequest` in the source): `files` is `none` when
the field is missing or not an array. -/
structure JarRequest where
  files : Option (List FileEntry)
  zipFilename : Option String
deriving DecidableEq, Repr

/-- A downloaded file handed from the fetcher to the archive assembler. -/
structure DownloadedFile where
  filename : String
  data : List Nat
deriving DecidableEq, Repr

/-- An assembled archive, modelled as its named members in write order
(the codec's binary encoding is a black box). -/
def Zip : Type := List (String × List Nat)

instance : DecidableEq Zip := by unfold Zip; infer_instance

/-- A response body: plain text, an archive payload, or empty. -/
inductive RespBody where
  | text (s : String)
  | zipData (z : Zip)
  | empty
deriving DecidableEq

/-- An HTTP response as the worker builds it: status, body, headers. -/
structure Response where
  status : Nat
  body : RespBody
  headers : List (String × String)
deriving DecidableEq

/-- What a cache hit carries (`CachedZipData` in the source). -/
structure CachedZipData where
  data : Zip
  etag : String
  timestamp : Nat
deriving DecidableEq

/-- Outcome of the outbound `fetch(file.url)` once the promise resolves:
either the response body bytes (`response.ok`), or a non-success status
with its status text. -/
inductive FetchOutcome where
  | success (data : List Nat)
  | httpError (status : Nat) (statusText : String)
deriving DecidableEq, Repr

/-- Outcome of `cache.match` inside `getCachedZip`: a hit, a miss, or the
cache backend throwing. -/
inductive LookupOutcome where
  | found (d : CachedZipData)
  | missing
  | failure (err : String)

/-- The platform primitives the worker calls, supplied as an environment:
`new URL(u).protocol` (`none` when the constructor throws), the outbound
fetch, the Cache API lookup and store, and the codec's binary encoding of
an archive (used only to derive the ETag). -/
structure Oracle where
  parseProtocol : String → Option String
  fetchFn : String → FetchOutcome
  cacheLookup : String → LookupOutcome
  cacheStore : Except String Unit
  encodeZip : Zip → List Nat

/-- Result of running the handler: the response (or the exception it
throws), the URLs for which an outbound fetch was issued, and the
background task registered with `ctx.waitUntil`, when any. -/
structure HandlerOutput where
  result : Except String Response
  fetched : List String
  background : Option (Except String Unit)

/-! ### SHA-256 (`crypto.subtle.digest('SHA-256', ...)`), over `Nat` -/

/-- Truncate to a 32-bit word. -/
def w32 (n : Nat) : Nat := n % 4294967296

/-- Right-rotate a 32-bit word by `k`. -/
def rotr32 (k x : Nat) : Nat := w32 ((x >>> k) ||| (x <<< (32 - k)))

def chF (x y z : Nat) : Nat := (x &&& y) ^^^ ((x ^^^ 4294967295) &&& z)

def majF (x y z : Nat) : Nat := (x &&& y) ^^^ (x &&& z) ^^^ (y &&& z)

def bigSigma0 (x : Nat) : Nat := rotr32 2 x ^^^ rotr32 13 x ^^^ rotr32 22 x

def bigSigma1 (x : Nat) : Nat := rotr32 6 x ^^^ rotr32 11 x ^^^ rotr32 25 x

def smallSigma0 (x : Nat) : Nat := rotr32 7 x ^^^ rotr32 18 x ^^^ (x >>> 3)

def smallSigma1 (x : Nat) : Nat := rotr32 17 x ^^^ rotr32 19 x ^^^ (x >>> 10)

/-- The 64 SHA-256 round constants (FIPS 180-4), in decimal. -/
def sha256K : List Nat :=
  [1116352408, 1899447441, 3049323471, 3921009573, 961987163, 1508970993,
   2453635748, 2870763221, 3624381080, 310598401, 607225278, 1426881987,
   1925078388, 2162078206, 2614888103, 3248222580, 3835390401, 4022224774,
   264347078, 604807628, 770255983, 1249150122, 1555081692, 1996064986,
   2554220882, 2821834349, 2952996808, 3210313671, 3336571891, 3584528711,
   113926993, 338241895, 666307205, 773529912, 1294757372, 1396182291,
   1695183700, 1986661051, 2177026350, 2456956037, 2730485921, 2820302411,
   3259730800, 3345764771, 3516065817, 3600352804, 4094571909, 275423344,
   430227734, 506948616, 659060556, 883997877, 958139571, 1322822218,
   1537002063, 1747873779, 1955562222, 2024104815, 2227730452, 2361852424,
   2428436474, 2756734187, 3204031479, 3329325298]

/-- The initial SHA-256 hash state (FIPS 180-4), in decimal. -/
def sha256H0 : List Nat :=
  [1779033703, 3144134277, 1013904242, 2773480762,
   1359893119, 2600822924, 528734635, 1541459225]

/-- Append the SHA-256 padding (a 0x80 byte, zeros, the 64-bit big-endian
bit length) to a byte message. -/
def sha256Pad (msg : List Nat) : List Nat :=
  let len := msg.length
  let bitLen := len * 8
  let zeros := (64 + 56 - ((len + 1) % 64)) % 64
  msg ++ [128] ++ List.replicate zeros 0 ++
    [(bitLen >>> 56) &&& 255, (bitLen >>> 48) &&& 255, (bitLen >>> 40) &&& 255,
     (bitLen >>> 32) &&& 255, (bitLen >>> 24) &&& 255, (bitLen >>> 16) &&& 255,
     (bitLen >>> 8) &&& 255, bitLen &&& 255]

/-- Group bytes into big-endian 32-bit words. -/
def bytesToWords : List Nat → List Nat
  | a :: b :: c :: d :: rest => ((a <<< 24) ||| (b <<< 16) ||| (c <<< 8) ||| d) :: bytesToWords rest
  | _ => []

/-- Split a padded byte message into 64-byte blocks of 16 words each;
`fuel` bounds the number of blocks. -/
def sha256Chunks (fuel : Nat) (l : List Nat) : List (List Nat) :=
  match fuel with
  | 0 => []
  | fuel + 1 =>
    if l.isEmpty then []
    else bytesToWords (l.take 64) :: sha256Chunks fuel (l.drop 64)

/-- Extend a 16-word block by `k` further schedule words. -/
def extendW (k : Nat) (w : List Nat) : List Nat :=
  match k with
  | 0 => w
  | k + 1 =>
    let t := w.length
    let nw := w32 (smallSigma1 (w.getD (t - 2) 0) + w.getD (t - 7) 0 +
                   smallSigma0 (w.getD (t - 15) 0) + w.getD (t - 16) 0)
    extendW k (w ++ [nw])

/-- One SHA-256 compression round; the state is `[a,b,c,d,e,f,g,h]` and
`kw` pairs the round constant with the schedule word. -/
def roundStep (st : List Nat) (kw : Nat × Nat) : List Nat :=
  let a := st.getD 0 0
  let b := st.getD 1 0
  let c := st.getD 2 0
  let d := st.getD 3 0
  let e := st.getD 4 0
  let f := st.getD 5 0
  let g := st.getD 6 0
  let h := st.getD 7 0
  let t1 := w32 (h + bigSigma1 e + chF e f g + kw.1 + kw.2)
  let t2 := w32 (bigSigma0 a + majF a b c)
  [w32 (t1 + t2), a, b, c, w32 (d + t1), e, f, g]

/-- Compress one 16-word block into the running hash state. -/
def compressBlock (h0 : List Nat) (block : List Nat) : List Nat :=
  let w := extendW 48 block
  let st := (sha256K.zip w).foldl roundStep h0
  (h0.zip st).map (fun p => w32 (p.1 + p.2))

/-- SHA-256 digest of a byte message, as 32 bytes. -/
def sha256Bytes (msg : List Nat) : List Nat :=
  let padded := sha256Pad msg
  let blocks := sha256Chunks ((padded.length + 63) / 64) padded
  let hs := blocks.foldl compressBlock sha256H0
  hs.flatMap (fun w => [(w >>> 24) &&& 255, (w >>> 16) &&& 255, (w >>> 8) &&& 255, w &&& 255])

def hexDigitChar (n : Nat) : Char := "0123456789abcdef".data.getD n '0'

/-- `b.toString(16).padStart(2, '0')` for a byte. -/
def byteToHex (b : Nat) : String := String.mk [hexDigitChar (b / 16), hexDigitChar (b % 16)]

/-- Lowercase-hex rendering of the SHA-256 digest of a byte message. -/
def sha256Hex (msg : List Nat) : String := String.join ((sha256Bytes msg).map byteToHex)

/-- UTF-8 encoding of one code point (`TextEncoder` semantics). -/
def utf8Char (c : Char) : List Nat :=
  let n := c.toNat
  if n < 128 then [n]
  else if n < 2048 then [192 ||| (n >>> 6), 128 ||| (n &&& 63)]
  else if n < 65536 then
    [224 ||| (n >>> 12), 128 ||| ((n >>> 6) &&& 63), 128 ||| (n &&& 63)]
  else
    [240 ||| (n >>> 18), 128 ||| ((n >>> 12) &&& 63), 128 ||| ((n >>> 6) &&& 63), 128 ||| (n &&& 63)]

/-- `new TextEncoder().encode(s)`. -/
def utf8Encode (s : String) : List Nat := s.data.flatMap utf8Char

/-! ### The worker's functions, translated from `src/index.ts` -/

/-- Does the first char list start with the second? -/
def charListStarts : List Char → List Char → Bool
  | _, [] => true
  | [], _ :: _ => false
  | a :: as, b :: bs => a = b && charListStarts as bs

/-- `s.startsWith(p)` over code points. -/
def strStarts (s p : String) : Bool := charListStarts s.data p.data

/-- `s.endsWith(p)` over code points. -/
def strEnds (s p : String) : Bool := charListStarts s.data.reverse p.data.reverse

/-- `s.toLowerCase()`, per-character. -/
def strToLower (s : String) : String := String.mk (s.data.map Char.toLower)

/-- The CORS header every response is supposed to carry. -/
def corsHeader : String × String := ("Access-Control-Allow-Origin", "*")

/-- A 400 response with a plain-text reason and the CORS header, the
shape every validation rejection takes in `handlePostRequest`. -/
def resp400 (msg : String) : Response :=
  { status := 400, body := .text msg, headers := [corsHeader] }

/-- The `allowedPrefixes` list from `handlePostRequest`. -/
def allowedPrefixes : List String :=
  ["https://github.com/EssentialsX/Essentials/",
   "https://ci.ender.zone/job/EssentialsX/"]

/-- `allowedPrefixes.some(prefix => file.url.startsWith(prefix))`. -/
def isAllowedSource (url : String) : Bool :=
  allowedPrefixes.any (fun p => strStarts url p)

/-- The filename normalization inline in `handlePostRequest`:
`file.filename.toLowerCase().endsWith('.jar') ? file.filename : file.filename + '.jar'`. -/
def normalizeFilename (filename : String) : String :=
  if strEnds (strToLower filename) ".jar" then filename else filename ++ ".jar"

/-- One iteration of the validation loop in `handlePostRequest`: either a
400 rejection or the normalized entry. -/
def validateFile (parseProtocol : String → Option String) (f : FileEntry) :
    Except Response FileEntry :=
  if f.url = "" ∨ f.filename = "" then
    .error (resp400 "Each file must have both url and filename properties")
  else
    match parseProtocol f.url with
    | none => .error (resp400 ("Invalid URL format: " ++ f.url))
    | some proto =>
      if proto ≠ "http:" ∧ proto ≠ "https:" then
        .error (resp400 ("Invalid URL protocol: " ++ f.url))
      else if ¬ isAllowedSource f.url then
        .error (resp400 ("URL must start with one of the allowed EssentialsX sources: " ++
          String.intercalate ", " allowedPrefixes ++ ". Got: " ++ f.url))
      else
        .ok { url := f.url, filename := normalizeFilename f.filename }

/-- The whole validation loop: the first rejection returns, otherwise
each entry is appended to `validFiles`. -/
def validateFiles (parseProtocol : String → Option String) :
    List FileEntry → Except Response (List FileEntry)
  | [] => .ok []
  | f :: rest =>
    match validateFile parseProtocol f with
    | .error r => .error r
    | .ok v =>
      match validateFiles parseProtocol rest with
      | .error r => .error r
      | .ok vs => .ok (v :: vs)

/-- Code-point lexicographic `≤` on char lists, the model of
`localeCompare(...) <= 0`. -/
def charListLe : List Char → List Char → Bool
  | [], _ => true
  | _ :: _, [] => false
  | a :: as, b :: bs =>
    if a < b then true
    else if b < a then false
    else charListLe as bs

/-- Code-point lexicographic `≤` on strings. -/
def strLe (a b : String) : Bool := charListLe a.data b.data

/-- Stable insertion of an entry into a url-sorted list: the new entry
goes before the first entry it compares `≤` to, so among equal urls the
earlier-inserted entries stay first. -/
def orderedInsertByUrl (a : FileEntry) : List FileEntry → List FileEntry
  | [] => [a]
  | b :: rest =>
    if strLe a.url b.url then a :: b :: rest else b :: orderedInsertByUrl a rest

/-- `[...validFiles].sort((a, b) => a.url.localeCompare(b.url))`:
`localeCompare` is modelled as code-point order, and JavaScript's
`Array.prototype.sort` is stable, as is this insertion sort (the two
agree on every input for the same comparator). -/
def sortFilesByUrl : List FileEntry → List FileEntry
  | [] => []
  | f :: rest => orderedInsertByUrl f (sortFilesByUrl rest)

/-- The per-entry serialization `` `${f.url}|${f.filename}` ``. -/
def serializeEntry (f : FileEntry) : String := f.url ++ "|" ++ f.filename

/-- `generateCacheKey`: SHA-256 hex of the `'|'`-joined serialized
entries, over UTF-8 bytes. -/
def generateCacheKey (urls : List String) : String :=
  sha256Hex (utf8Encode (String.intercalate "|" urls))

/-- The cache key `handlePostRequest` derives from the validated files:
sort by url, serialize each entry, hash the join. -/
def cacheKeyOfValidFiles (validFiles : List FileEntry) : String :=
  generateCacheKey ((sortFilesByUrl validFiles).map serializeEntry)

/-- `generateETag`: first 16 hex digits of the SHA-256 of the archive
bytes. -/
def generateETag (data : List Nat) : String := (sha256Hex data).take 16

/-- `getCachedZip`: a backend throw is caught and returns `null`, so the
request degrades to a miss. -/
def getCachedZip (lookup : LookupOutcome) : Option CachedZipData :=
  match lookup with
  | .found d => some d
  | .missing => none
  | .failure _ => none

/-- `cacheZip`: `cache.put` runs inside try/catch, so the function never
throws regardless of the backend outcome. -/
def cacheZip (storeOutcome : Except String Unit) : Except String Unit :=
  match storeOutcome with
  | .ok _ => .ok ()
  | .error _ => .ok ()

/-- One download task inside `createZipFromFiles`: a non-ok response
becomes a rejection whose message names the URL and status. -/
def downloadFile (fetchFn : String → FetchOutcome) (f : FileEntry) :
    Except String DownloadedFile :=
  match fetchFn f.url with
  | .success data => .ok { filename := f.filename, data := data }
  | .httpError status statusText =>
    .error ("Failed to download " ++ f.url ++ ": " ++ toString status ++ " " ++ statusText)

def exceptIsErr : Except String DownloadedFile → Bool
  | .error _ => true
  | .ok _ => false

def exceptErrMsg : Except String DownloadedFile → String
  | .error e => e
  | .ok _ => ""

def exceptToOption : Except String DownloadedFile → Option DownloadedFile
  | .error _ => none
  | .ok v => some v

/-- `createZip`: each file is added as a named member in add-call order. -/
def createZip (files : List DownloadedFile) : Zip :=
  files.map (fun f => (f.filename, f.data))

/-- `createZipFromFiles`: settle every download, aggregate all failures
into one error, otherwise pack the downloaded files. -/
def createZipFromFiles (fetchFn : String → FetchOutcome) (files : List FileEntry) :
    Except String Zip :=
  let downloads := files.map (downloadFile fetchFn)
  let failed := downloads.filter exceptIsErr
  if 0 < failed.length then
    .error ("Failed to download some files: " ++
      String.intercalate ", " (failed.map exceptErrMsg))
  else
    .ok (createZip (downloads.filterMap exceptToOption))

/-- `createZipResponse`: 200 with archive payload and the standard
headers. -/
def createZipResponse (data : Zip) (etag : String) (filename : Option String) : Response :=
  let zipFilename := filename.getD "jars.zip"
  { status := 200
    body := .zipData data
    headers :=
      [("Content-Type", "application/zip"),
       ("Content-Disposition", "attachment; filename=\"" ++ zipFilename ++ "\""),
       ("ETag", etag),
       ("Cache-Control", "public, max-age=31536000, immutable"),
       corsHeader] }

/-- The no-valid-files rejection after the validation loop. -/
def noValidFilesResponse : Response := resp400 "No valid files provided"

/-- `handlePostRequest` on an already-parsed body: validate, derive the
cache key, serve a hit, or fetch + assemble + schedule the cache store.
A thrown error (aggregate download failure) is the `Except.error` case. -/
def handlePostRequest (o : Oracle) (body : JarRequest) : HandlerOutput :=
  match body.files with
  | none =>
    { result := .ok (resp400 "Invalid request: files array is required"),
      fetched := [], background := none }
  | some files =>
    if files.isEmpty then
      { result := .ok (resp400 "Invalid request: files array is required"),
        fetched := [], background := none }
    else
      match validateFiles o.parseProtocol files with
      | .error r => { result := .ok r, fetched := [], background := none }
      | .ok validFiles =>
        if validFiles.length = 0 then
          { result := .ok noValidFilesResponse, fetched := [], background := none }
        else
          let cacheKey := cacheKeyOfValidFiles validFiles
          match getCachedZip (o.cacheLookup cacheKey) with
          | some cached =>
            { result := .ok (createZipResponse cached.data cached.etag body.zipFilename),
              fetched := [], background := none }
          | none =>
            match createZipFromFiles o.fetchFn validFiles with
            | .error e =>
              { result := .error e, fetched := validFiles.map (·.url), background := none }
            | .ok zipData =>
              let etag := generateETag (o.encodeZip zipData)
              { result := .ok (createZipResponse zipData etag body.zipFilename),
                fetched := validFiles.map (·.url),
                background := some (cacheZip o.cacheStore) }

/-- The CORS-preflight response (`OPTIONS` branch of `fetch`). -/
def preflightResponse : Response :=
  { status := 200, body := .empty,
    headers := [corsHeader,
                ("Access-Control-Allow-Methods", "GET, POST, OPTIONS"),
                ("Access-Control-Allow-Headers", "Content-Type")] }

/-- The 500 built by the top-level catch in `fetch`. -/
def resp500 (e : String) : Response :=
  { status := 500, body := .text ("Internal Server Error: " ++ e),
    headers := [corsHeader] }

/-- The bare 405 for non-POST, non-OPTIONS methods. -/
def methodNotAllowedResponse : Response :=
  { status := 405, body := .text "Method not allowed", headers := [] }

/-- The exported `fetch` handler: CORS preflight, POST dispatch with the
top-level try/catch converting any throw (including a body-parse failure)
to a 500, and a bare 405 otherwise. `parsedBody` is the outcome of
`request.json()`. -/
def workerFetch (o : Oracle) (method : String) (parsedBody : Except String JarRequest) :
    HandlerOutput :=
  if method = "OPTIONS" then
    { result := .ok preflightResponse, fetched := [], background := none }
  else if method = "POST" then
    match parsedBody with
    | .error e =>
      { result := .ok (resp500 e), fetched := [], background := none }
    | .ok body =>
      let h := handlePostRequest o body
      match h.result with
      | .error e =>
        { result := .ok (resp500 e), fetched := h.fetched, background := h.background }
      | .ok _ => h
  else
    { result := .ok methodNotAllowedResponse, fetched := [], background := none }

/-! ### Spec-side definitions and concrete fixtures -/

deriving instance DecidableEq for Except

/-- The spec's case-insensitive suffix test: the filename "ends with the
required suffix (case-insensitive)". -/
def specEndsWithCaseInsensitive (s suf : String) : Bool :=
  strEnds (strToLower s) (strToLower suf)

/-- Whether the outbound fetch for a URL succeeded. -/
def fetchOk : FetchOutcome → Bool
  | .success _ => true
  | .httpError _ _ => false

/-- The bytes a successful fetch returned (junk on failure; only used
under a success hypothesis). -/
def fetchData (fetchFn : String → FetchOutcome) (f : FileEntry) : List Nat :=
  match fetchFn f.url with
  | .success d => d
  | .httpError _ _ => []

/-- A stand-in for `new URL(u).protocol`, used only in concrete
witnesses: the scheme when the string has an http/https scheme. -/
def testParseProtocol (s : String) : Option String :=
  if strStarts s "https://" then some "https:"
  else if strStarts s "http://" then some "http:"
  else none

/-- A concrete environment for witnesses: every fetch succeeds with a
one-byte body, the cache always misses, the store succeeds. -/
def testOracle : Oracle :=
  { parseProtocol := testParseProtocol
    fetchFn := fun _ => .success [7]
    cacheLookup := fun _ => .missing
    cacheStore := .ok ()
    encodeZip := fun _ => [] }

/-- The second allow-listed prefix, used verbatim as a valid URL in the
concrete fixtures. -/
def ciUrl : String := "https://ci.ender.zone/job/EssentialsX/"

def entryA : FileEntry := { url := ciUrl, filename := "a.jar" }

def entryB : FileEntry := { url := ciUrl, filename := "b.jar" }

/-- A single valid entry whose filename embeds the `|` separator; its
serialization collides with that of `[entryA, entryB]`. -/
def entryAB : FileEntry := { url := ciUrl, filename := "a.jar|" ++ ciUrl ++ "|b.jar" }

/-- A valid entry under the first allow-listed prefix, with a url
distinct from `ciUrl`. -/
def entryG : FileEntry :=
  { url := "https://github.com/EssentialsX/Essentials/releases/x", filename := "g.jar" }

/-- An entry whose url is well-formed but not allow-listed. -/
def badEntry : FileEntry := { url := "https://example.com/x.jar", filename := "x.jar" }

/-- A valid entry whose filename lacks the `.jar` suffix. -/
def entryGRaw : FileEntry := { url := entryG.url, filename := "g" }

/-! ### Helper lemmas: the comparator and the stable sort -/

theorem charListLe_total (as bs : List Char) :
    charListLe as bs = true ∨ charListLe bs as = true := by
  induction as generalizing bs with
  | nil => left; rfl
  | cons a as ih =>
    cases bs with
    | nil => right; rfl
    | cons b bs =>
      by_cases hab : a < b
      · left; simp [charListLe, hab]
      · by_cases hba : b < a
        · right; simp [charListLe, hba, asymm hba]
        · have heq : a = b := le_antisymm (not_lt.mp hba) (not_lt.mp hab)
          subst heq
          simp only [charListLe, lt_irrefl, if_false]
          exact ih bs

theorem charListLe_trans {as bs cs : List Char} (h1 : charListLe as bs = true)
    (h2 : charListLe bs cs = true) : charListLe as cs = true := by
  induction as generalizing bs cs with
  | nil => rfl
  | cons a as ih =>
    cases bs with
    | nil => simp [charListLe] at h1
    | cons b bs =>
      cases cs with
      | nil => simp [charListLe] at h2
      | cons c cs =>
        by_cases hab : a < b
        · by_cases hbc : b < c
          · simp [charListLe, lt_trans hab hbc]
          · by_cases hcb : c < b
            · simp [charListLe, hbc, hcb] at h2
            · have : b = c := le_antisymm (not_lt.mp hcb) (not_lt.mp hbc)
              subst this
              simp [charListLe, hab]
        · by_cases hba : b < a
          · simp [charListLe, hab, hba] at h1
          · have : a = b := le_antisymm (not_lt.mp hba) (not_lt.mp hab)
            subst this
            simp only [charListLe, lt_irrefl, if_false] at h1
            by_cases hac : a < c
            · simp [charListLe, hac]
            · by_cases hca : c < a
              · simp [charListLe, hac, hca] at h2
              · have : a = c := le_antisymm (not_lt.mp hca) (not_lt.mp hac)
                subst this
                simp only [charListLe, lt_irrefl, if_false] at h2 ⊢
                exact ih h1 h2

theorem charListLe_antisymm {as bs : List Char} (h1 : charListLe as bs = true)
    (h2 : charListLe bs as = true) : as = bs := by
  induction as generalizing bs with
  | nil =>
    cases bs with
    | nil => rfl
    | cons b bs => simp [charListLe] at h2
  | cons a as ih =>
    cases bs with
    | nil => simp [charListLe] at h1
    | cons b bs =>
      by_cases hab : a < b
      · simp [charListLe, hab, asymm hab] at h2
      · by_cases hba : b < a
        · simp [charListLe, hab, hba] at h1
        · have heq : a = b := le_antisymm (not_lt.mp hba) (not_lt.mp hab)
          subst heq
          simp only [charListLe, lt_irrefl, if_false] at h1 h2
          exact congrArg (a :: ·) (ih h1 h2)

theorem strLe_total (a b : String) : strLe a b = true ∨ strLe b a = true :=
  charListLe_total a.data b.data

theorem strLe_trans {a b c : String} (h1 : strLe a b = true) (h2 : strLe b c = true) :
    strLe a c = true :=
  charListLe_trans h1 h2

theorem strLe_antisymm {a b : String} (h1 : strLe a b = true) (h2 : strLe b a = true) :
    a = b := by
  cases a with
  | mk da =>
    cases b with
    | mk db => exact congrArg String.mk (charListLe_antisymm h1 h2)

/-- Sortedness of a file list by url, under the model comparator. -/
abbrev SortedByUrl (l : List FileEntry) : Prop :=
  List.Pairwise (fun a b => strLe a.url b.url = true) l

theorem orderedInsertByUrl_perm (a : FileEntry) (l : List FileEntry) :
    (orderedInsertByUrl a l).Perm (a :: l) := by
  induction l with
  | nil => exact List.Perm.refl _
  | cons b rest ih =>
    by_cases h : strLe a.url b.url = true
    · simp [orderedInsertByUrl, h]
    · simp only [orderedInsertByUrl, h, if_false]
      exact (ih.cons b).trans (List.Perm.swap a b rest)

theorem sortFilesByUrl_perm (l : List FileEntry) : (sortFilesByUrl l).Perm l := by
  induction l with
  | nil => exact List.Perm.refl _
  | cons f rest ih =>
    exact (orderedInsertByUrl_perm f (sortFilesByUrl rest)).trans (ih.cons f)

theorem orderedInsertByUrl_sorted {l : List FileEntry} (a : FileEntry)
    (h : SortedByUrl l) : SortedByUrl (orderedInsertByUrl a l) := by
  induction l with
  | nil => simp [orderedInsertByUrl, SortedByUrl]
  | cons b rest ih =>
    rcases h with - | ⟨hb, hrest⟩
    by_cases hab : strLe a.url b.url = true
    · simp only [orderedInsertByUrl, hab, if_true]
      refine List.Pairwise.cons ?_ (List.Pairwise.cons hb hrest)
      intro x hx
      rcases List.mem_cons.mp hx with rfl | hx
      · exact hab
      · exact strLe_trans hab (hb x hx)
    · simp only [orderedInsertByUrl, hab, if_false]
      refine List.Pairwise.cons ?_ (ih hrest)
      intro x hx
      have hperm := orderedInsertByUrl_perm a rest
      rcases List.mem_cons.mp (hperm.mem_iff.mp hx) with rfl | hx
      · rcases strLe_total x.url b.url with h' | h'
        · exact absurd h' hab
        · exact h'
      · exact hb x hx

theorem sortFilesByUrl_sorted (l : List FileEntry) : SortedByUrl (sortFilesByUrl l) := by
  induction l with
  | nil => exact List.Pairwise.nil
  | cons f rest ih => exact orderedInsertByUrl_sorted f ih

/-- Two permuted lists with pairwise-distinct urls sort to the same
list. -/
theorem sortFilesByUrl_eq_of_perm {l1 l2 : List FileEntry} (hp : l1.Perm l2)
    (hn : (l1.map FileEntry.url).Nodup) : sortFilesByUrl l1 = sortFilesByUrl l2 := by
  set r : FileEntry → FileEntry → Prop :=
    fun a b => strLe a.url b.url = true ∧ a.url ≠ b.url with hr
  letI : IsAntisymm FileEntry r :=
    ⟨fun a b h1 h2 => absurd (strLe_antisymm h1.1 h2.1) h1.2⟩
  have hps : (sortFilesByUrl l1).Perm (sortFilesByUrl l2) :=
    ((sortFilesByUrl_perm l1).trans hp).trans (sortFilesByUrl_perm l2).symm
  have hsorted : ∀ m : List FileEntry, (m.map FileEntry.url).Nodup →
      List.Sorted r (sortFilesByUrl m) := by
    intro m hm
    have h1 : SortedByUrl (sortFilesByUrl m) := sortFilesByUrl_sorted m
    have h2 : ((sortFilesByUrl m).map FileEntry.url).Nodup :=
      (hm.perm ((sortFilesByUrl_perm m).map FileEntry.url).symm)
    have h3 : List.Pairwise (fun a b : FileEntry => a.url ≠ b.url) (sortFilesByUrl m) :=
      List.pairwise_map.mp h2
    exact (h1.and h3).imp (fun h => h)
  have hn2 : (l2.map FileEntry.url).Nodup := hn.perm (hp.map FileEntry.url)
  exact List.eq_of_perm_of_sorted hps (hsorted l1 hn) (hsorted l2 hn2)

/-! ### Helper lemmas: validation -/

/-- If the start of `v` does not match `a`, then `v` is not `a`
followed by anything. -/
theorem append_ne_of_take_ne (a b v : String)
    (h : v.data.take a.data.length ≠ a.data) : a ++ b ≠ v := by
  intro he
  apply h
  have hd : v.data = a.data ++ b.data := by
    rw [← he, String.data_append]
  rw [hd, List.take_left]

/-- Every rejection in the validation loop is a 400 with the CORS
header. -/
theorem validateFile_error_shape {p : String → Option String} {f : FileEntry}
    {r : Response} (h : validateFile p f = .error r) : ∃ m, r = resp400 m := by
  unfold validateFile at h
  split at h
  · exact ⟨_, (Except.error.inj h).symm⟩
  · split at h
    · exact ⟨_, (Except.error.inj h).symm⟩
    · split at h
      · exact ⟨_, (Except.error.inj h).symm⟩
      · split at h
        · exact ⟨_, (Except.error.inj h).symm⟩
        · exact absurd h (by simp)

/-- A validated entry always passed the allow-list check. -/
theorem validateFile_ok_allowed {p : String → Option String} {f : FileEntry}
    {v : FileEntry} (h : validateFile p f = .ok v) : isAllowedSource f.url = true := by
  unfold validateFile at h
  split at h
  · exact absurd h (by simp)
  · split at h
    · exact absurd h (by simp)
    · split at h
      · exact absurd h (by simp)
      · split at h
        · exact absurd h (by simp)
        · rename_i hall
          exact Bool.of_not_eq_false (fun hf => hall (by simp [hf]))

set_option maxRecDepth 8000 in
/-- No rejection message of the validation loop reads
`No valid files provided`. -/
theorem validateFile_error_ne_noValid {p : String → Option String} {f : FileEntry}
    {r : Response} (h : validateFile p f = .error r) : r ≠ noValidFilesResponse := by
  have hmsg : ∀ (m : String), resp400 m ≠ noValidFilesResponse → r = resp400 m →
      r ≠ noValidFilesResponse := by
    intro m hne he
    rw [he]; exact hne
  have hbody : ∀ (m : String), m ≠ "No valid files provided" →
      resp400 m ≠ noValidFilesResponse := by
    intro m hne he
    apply hne
    have := congrArg Response.body he
    simpa [resp400, noValidFilesResponse] using this
  unfold validateFile at h
  split at h
  · exact hmsg _ (hbody _ (by decide)) (Except.error.inj h).symm
  · split at h
    · refine hmsg _ (hbody _ ?_) (Except.error.inj h).symm
      exact append_ne_of_take_ne _ _ _ (by decide)
    · split at h
      · refine hmsg _ (hbody _ ?_) (Except.error.inj h).symm
        exact append_ne_of_take_ne _ _ _ (by decide)
      · split at h
        · refine hmsg _ (hbody _ ?_) (Except.error.inj h).symm
          exact append_ne_of_take_ne _ _ _ (by decide)
        · exact absurd h (by simp)

/-- The validation loop preserves length: one output entry per input
entry. -/
theorem validateFiles_ok_length {p : String → Option String} {l vs : List FileEntry}
    (h : validateFiles p l = .ok vs) : vs.length = l.length := by
  induction l generalizing vs with
  | nil =>
    unfold validateFiles at h
    cases h
    rfl
  | cons f rest ih =>
    unfold validateFiles at h
    cases hf : validateFile p f with
    | error r => rw [hf] at h; exact absurd h (by simp)
    | ok v =>
      rw [hf] at h
      cases hr : validateFiles p rest with
      | error r => rw [hr] at h; exact absurd h (by simp)
      | ok ws =>
        rw [hr] at h
        cases h
        simpa using ih hr

/-- A rejection of the whole loop is the rejection of one entry. -/
theorem validateFiles_error_src {p : String → Option String} {l : List FileEntry}
    {r : Response} (h : validateFiles p l = .error r) :
    ∃ f ∈ l, validateFile p f = .error r := by
  induction l with
  | nil =>
    unfold validateFiles at h
    exact absurd h (by simp)
  | cons f rest ih =>
    unfold validateFiles at h
    cases hf : validateFile p f with
    | error r' =>
      rw [hf] at h
      exact ⟨f, List.mem_cons_self f rest, by rw [hf, Except.error.inj h]⟩
    | ok v =>
      rw [hf] at h
      cases hr : validateFiles p rest with
      | error r' =>
        rw [hr] at h
        obtain ⟨g, hg, hge⟩ := ih (by rw [hr, Except.error.inj h])
        exact ⟨g, List.mem_cons_of_mem f hg, hge⟩
      | ok ws => rw [hr] at h; exact absurd h (by simp)

/-- If some entry fails the allow-list, the loop rejects with a 400. -/
theorem validateFiles_error_of_notAllowed {p : String → Option String}
    {l : List FileEntry} {f : FileEntry} (hf : f ∈ l)
    (hb : isAllowedSource f.url = false) :
    ∃ r, validateFiles p l = .error r ∧ ∃ m, r = resp400 m := by
  induction l with
  | nil => exact absurd hf (List.not_mem_nil f)
  | cons g rest ih =>
    cases hg : validateFile p g with
    | error r =>
      refine ⟨r, ?_, validateFile_error_shape hg⟩
      unfold validateFiles
      rw [hg]
    | ok v =>
      rcases List.mem_cons.mp hf with rfl | hf'
      · have := validateFile_ok_allowed hg
        rw [hb] at this
        exact absurd this (by simp)
      · obtain ⟨r, hr, hm⟩ := ih hf'
        refine ⟨r, ?_, hm⟩
        unfold validateFiles
        rw [hg, hr]

/-! ### Helper lemmas: the concurrent fetch step -/

/-- The status a settled retrieval reported (200 stands in for any
success; only used on failures). -/
def httpStatusOf : FetchOutcome → Nat
  | .success _ => 200
  | .httpError s _ => s

def httpStatusTextOf : FetchOutcome → String
  | .success _ => ""
  | .httpError _ t => t

/-- The diagnostic a failed retrieval contributes: its URL, status and
status text. -/
def failureMessage (ff : String → FetchOutcome) (f : FileEntry) : String :=
  "Failed to download " ++ f.url ++ ": " ++ toString (httpStatusOf (ff f.url)) ++ " " ++
    httpStatusTextOf (ff f.url)

theorem downloadFile_ok {ff : String → FetchOutcome} {f : FileEntry}
    (h : fetchOk (ff f.url) = true) :
    downloadFile ff f = .ok { filename := f.filename, data := fetchData ff f } := by
  unfold downloadFile fetchData
  cases hf : ff f.url with
  | success d => rfl
  | httpError s t => rw [hf] at h; exact absurd h (by simp [fetchOk])

theorem downloadFile_err {ff : String → FetchOutcome} {f : FileEntry}
    (h : fetchOk (ff f.url) = false) :
    downloadFile ff f = .error (failureMessage ff f) := by
  unfold downloadFile failureMessage httpStatusOf httpStatusTextOf
  cases hf : ff f.url with
  | success d => rw [hf] at h; exact absurd h (by simp [fetchOk])
  | httpError s t => rfl

theorem filterMap_downloads {ff : String → FetchOutcome} {files : List FileEntry}
    (h : ∀ f ∈ files, fetchOk (ff f.url) = true) :
    (files.map (downloadFile ff)).filterMap exceptToOption =
      files.map (fun f => { filename := f.filename, data := fetchData ff f }) := by
  induction files with
  | nil => rfl
  | cons f rest ih =>
    rw [List.map_cons, List.filterMap_cons,
      downloadFile_ok (h f (List.mem_cons_self f rest))]
    simp only [exceptToOption]
    rw [List.map_cons]
    exact congrArg _ (ih (fun g hg => h g (List.mem_cons_of_mem f hg)))

/-- The full behaviour of `createZipFromFiles` in one equation: when all
retrievals succeed, the archive has one member per input file, named by
its filename, carrying its downloaded bytes, in input order; when any
retrieval fails, the result is a single aggregate error listing every
failed file's URL, status and status text, and no archive. -/
theorem createZipFromFiles_eq (ff : String → FetchOutcome) (files : List FileEntry) :
    createZipFromFiles ff files =
      if files.all (fun f => fetchOk (ff f.url)) then
        .ok (files.map (fun f => (f.filename, fetchData ff f)))
      else
        .error ("Failed to download some files: " ++ String.intercalate ", "
          ((files.filter (fun f => !(fetchOk (ff f.url)))).map (failureMessage ff))) := by
  have hfilter : (files.map (downloadFile ff)).filter exceptIsErr =
      (files.filter (fun f => !(fetchOk (ff f.url)))).map (downloadFile ff) := by
    rw [List.filter_map]
    congr 1
    apply List.filter_congr
    intro f _
    show exceptIsErr (downloadFile ff f) = !(fetchOk (ff f.url))
    cases hf : ff f.url with
    | success d => rw [downloadFile_ok (by rw [hf]; rfl)]; simp [exceptIsErr, fetchOk, hf]
    | httpError s t => rw [downloadFile_err (by rw [hf]; rfl)]; simp [exceptIsErr, fetchOk, hf]
  unfold createZipFromFiles
  dsimp only
  by_cases hall : files.all (fun f => fetchOk (ff f.url)) = true
  · have hnil : files.filter (fun f => !(fetchOk (ff f.url))) = [] := by
      rw [List.filter_eq_nil_iff]
      intro f hf
      rw [List.all_eq_true.mp hall f hf]
      simp
    rw [hfilter, hnil]
    simp only [List.map_nil, List.length_nil]
    rw [if_neg (lt_irrefl 0), if_pos hall]
    rw [filterMap_downloads (List.all_eq_true.mp hall)]
    unfold createZip
    rw [List.map_map]
    rfl
  · have hne : files.filter (fun f => !(fetchOk (ff f.url))) ≠ [] := by
      intro hnil
      apply hall
      rw [List.all_eq_true]
      intro f hf
      by_contra hfo
      have hmem : f ∈ files.filter (fun f => !(fetchOk (ff f.url))) :=
        List.mem_filter.mpr ⟨hf, by simp [Bool.not_eq_true] at hfo ⊢; exact hfo⟩
      rw [hnil] at hmem
      exact absurd hmem (List.not_mem_nil f)
    have hpos : 0 < ((files.map (downloadFile ff)).filter exceptIsErr).length := by
      rw [hfilter, List.length_map]
      exact List.length_pos.mpr hne
    rw [if_pos hpos, if_neg hall]
    congr 1
    rw [hfilter, List.map_map]
    congr 1
    congr 1
    apply List.map_congr_left
    intro f hf
    have hbad : fetchOk (ff f.url) = false := by
      have := (List.mem_filter.mp hf).2
      simpa using this
    show exceptErrMsg (downloadFile ff f) = failureMessage ff f
    rw [downloadFile_err hbad]
    rfl

/-! ### Helper lemmas: the request handler -/

/-- The status of a handler result, when it did not throw. -/
def resultStatus : Except String Response → Option Nat
  | .ok r => some r.status
  | .error _ => none

theorem cacheZip_absorbs (s : Except String Unit) : cacheZip s = .ok () := by
  cases s <;> rfl

/-- Every response `handlePostRequest` returns (rather than throws)
carries the CORS header. -/
theorem handlePostRequest_ok_cors {o : Oracle} {b : JarRequest} {r : Response}
    (h : (handlePostRequest o b).result = .ok r) : corsHeader ∈ r.headers := by
  unfold handlePostRequest at h
  cases hb : b.files with
  | none =>
    rw [hb] at h
    dsimp only at h
    rw [← Except.ok.inj h]
    decide
  | some files =>
    rw [hb] at h
    dsimp only at h
    split at h
    · rw [← Except.ok.inj h]
      decide
    · split at h
      · rename_i r' hv
        obtain ⟨f, _, hfe⟩ := validateFiles_error_src hv
        obtain ⟨m, rfl⟩ := validateFile_error_shape hfe
        rw [← Except.ok.inj h]
        simp [resp400]
      · split at h
        · rw [← Except.ok.inj h]
          decide
        · split at h
          · rw [← Except.ok.inj h]
            simp [createZipResponse]
          · split at h
            · exact absurd h (by simp)
            · rw [← Except.ok.inj h]
              simp [createZipResponse]

/-- The response never depends on the cache-store outcome: the store is
fire-and-forget and absorbs its own failures. -/
theorem handlePostRequest_store_independent (o : Oracle) (b : JarRequest)
    (s1 s2 : Except String Unit) :
    handlePostRequest { o with cacheStore := s1 } b =
      handlePostRequest { o with cacheStore := s2 } b := by
  unfold handlePostRequest
  cases b.files with
  | none => rfl
  | some files =>
    dsimp only
    split
    · rfl
    · split
      · rfl
      · split
        · rfl
        · split
          · rfl
          · split
            · rfl
            · rw [cacheZip_absorbs s1, cacheZip_absorbs s2]

/-- A throwing cache lookup behaves exactly like a miss. -/
theorem handlePostRequest_lookup_failure_is_miss (o : Oracle) (b : JarRequest)
    (e : String) :
    handlePostRequest { o with cacheLookup := fun _ => .failure e } b =
      handlePostRequest { o with cacheLookup := fun _ => .missing } b := by
  unfold handlePostRequest
  cases b.files with
  | none => rfl
  | some files =>
    dsimp only
    split
    · rfl
    · split
      · rfl
      · split
        · rfl
        · rfl

/-! ### The claims -/

set_option maxRecDepth 100000 in
/-- C1 (counterexample): the cache key is not invariant under every
permutation of a valid file set. Two entries sharing a url but with
different filenames keep their original relative order under the stable
sort-by-url, so the two orders serialize differently and hash to
different keys. -/
theorem claim_C1_counterexample :
    validateFiles testParseProtocol [entryA, entryB] = .ok [entryA, entryB] ∧
    [entryA, entryB].Perm [entryB, entryA] ∧
    cacheKeyOfValidFiles [entryA, entryB] ≠ cacheKeyOfValidFiles [entryB, entryA] :=
  ⟨by decide, List.Perm.swap entryB entryA [], by decide⟩

/-- C1 (amended): for file sets whose entries have pairwise-distinct
urls, the derived cache key is invariant under permutation of the input
list — sorting by url then fully canonicalizes the order. -/
theorem claim_C1_theorem (l1 l2 : List FileEntry) (hp : l1.Perm l2)
    (hn : (l1.map FileEntry.url).Nodup) :
    cacheKeyOfValidFiles l1 = cacheKeyOfValidFiles l2 := by
  unfold cacheKeyOfValidFiles
  rw [sortFilesByUrl_eq_of_perm hp hn]

/-- C1 (witness): two concrete reorderings of a distinct-url file set
derive the same cache key. -/
theorem claim_C1_witness :
    [entryA, entryG].Perm [entryG, entryA] ∧
    cacheKeyOfValidFiles [entryA, entryG] = cacheKeyOfValidFiles [entryG, entryA] :=
  ⟨List.Perm.swap entryG entryA [],
   claim_C1_theorem [entryA, entryG] [entryG, entryA]
     (List.Perm.swap entryG entryA []) (by decide)⟩

/-- C2: the concurrent fetch step is all-or-nothing. Every retrieval is
settled: when all succeed the downloaded files are returned (and packed
in input order); when any fails, the result is a single aggregate error
whose message lists, for every failed file, its URL, status and status
text, and no archive is produced. -/
theorem claim_C2_theorem (ff : String → FetchOutcome) (files : List FileEntry) :
    createZipFromFiles ff files =
      if files.all (fun f => fetchOk (ff f.url)) then
        .ok (files.map (fun f => (f.filename, fetchData ff f)))
      else
        .error ("Failed to download some files: " ++ String.intercalate ", "
          ((files.filter (fun f => !(fetchOk (ff f.url)))).map (failureMessage ff))) :=
  createZipFromFiles_eq ff files

/-- C3: the pre-hash serializations of distinct validated file sets can
coincide exactly, because `|` separates both the url from the filename
and entry from entry: the two-entry set `[entryA, entryB]` and the
one-entry set `[entryAB]` (whose filename embeds `|`) are both valid,
differ, serialize to the same canonical string, and therefore derive the
very same cache key — not merely a hash collision. -/
theorem claim_C3_theorem :
    validateFiles testParseProtocol [entryA, entryB] = .ok [entryA, entryB] ∧
    validateFiles testParseProtocol [entryAB] = .ok [entryAB] ∧
    [entryA, entryB] ≠ [entryAB] ∧
    String.intercalate "|" ((sortFilesByUrl [entryA, entryB]).map serializeEntry) =
      String.intercalate "|" ((sortFilesByUrl [entryAB]).map serializeEntry) ∧
    cacheKeyOfValidFiles [entryA, entryB] = cacheKeyOfValidFiles [entryAB] := by
  refine ⟨by decide, by decide, by decide, by decide, ?_⟩
  unfold cacheKeyOfValidFiles generateCacheKey
  exact congrArg (fun s => sha256Hex (utf8Encode s)) (by decide)

/-- C4: whenever the fetch step returns an archive, its members are
exactly the input files' names paired with their downloaded bytes, in
the original request order. -/
theorem claim_C4_theorem (ff : String → FetchOutcome) (files : List FileEntry) (z : Zip)
    (h : createZipFromFiles ff files = .ok z) :
    z = files.map (fun f => (f.filename, fetchData ff f)) := by
  rw [createZipFromFiles_eq] at h
  split at h
  · exact (Except.ok.inj h).symm
  · exact absurd h (by simp)

/-- C4 (witness): a concrete two-file fetch produces exactly the two
named members in request order. -/
theorem claim_C4_witness :
    createZipFromFiles testOracle.fetchFn [entryA, entryG] =
      .ok [("a.jar", [7]), ("g.jar", [7])] ∧
    ([(("a.jar" : String), ([7] : List Nat)), ("g.jar", [7])] : Zip) =
      [entryA, entryG].map (fun f => (f.filename, fetchData testOracle.fetchFn f)) :=
  ⟨by decide,
   claim_C4_theorem testOracle.fetchFn [entryA, entryG] _ (by decide)⟩

/-- C5: a request containing any entry whose url is outside the
allow-list is answered with a 400, and no outbound fetch is issued for
any file of that request. -/
theorem claim_C5_theorem (o : Oracle) (body : JarRequest) (l : List FileEntry)
    (f : FileEntry) (hb : body.files = some l) (hf : f ∈ l)
    (hbad : isAllowedSource f.url = false) :
    resultStatus (handlePostRequest o body).result = some 400 ∧
      (handlePostRequest o body).fetched = [] := by
  cases l with
  | nil => exact absurd hf (List.not_mem_nil f)
  | cons g rest =>
    obtain ⟨r, hr, m, rfl⟩ :=
      validateFiles_error_of_notAllowed (p := o.parseProtocol) hf hbad
    unfold handlePostRequest
    rw [hb]
    dsimp only
    rw [if_neg (by simp), hr]
    exact ⟨rfl, rfl⟩

/-- C5 (witness): a concrete request with a non-allow-listed url gets a
400 and fetches nothing. -/
theorem claim_C5_witness :
    resultStatus (handlePostRequest testOracle
        { files := some [badEntry], zipFilename := none }).result = some 400 ∧
      (handlePostRequest testOracle
        { files := some [badEntry], zipFilename := none }).fetched = [] :=
  claim_C5_theorem testOracle { files := some [badEntry], zipFilename := none }
    [badEntry] badEntry rfl (List.mem_cons_self badEntry []) (by decide)

/-- C6: filename normalization appends `.jar` exactly when the filename
does not already end with `.jar` under a case-insensitive comparison,
and otherwise leaves the filename unchanged, casing included. -/
theorem claim_C6_theorem (s : String) :
    normalizeFilename s =
      if specEndsWithCaseInsensitive s ".jar" = true then s else s ++ ".jar" := by
  unfold normalizeFilename specEndsWithCaseInsensitive
  rw [show strToLower ".jar" = ".jar" from by decide]

/-- C7: cache failures are fully absorbed — a throwing lookup returns
`null` (an ordinary miss), the fire-and-forget store never throws, a
request behaves identically whether the lookup throws or misses, and the
handler's output is independent of the store outcome. -/
theorem claim_C7_theorem :
    (∀ e, getCachedZip (.failure e) = none) ∧
    (∀ s, cacheZip s = .ok ()) ∧
    (∀ (o : Oracle) (b : JarRequest) (e : String),
      handlePostRequest { o with cacheLookup := fun _ => .failure e } b =
        handlePostRequest { o with cacheLookup := fun _ => .missing } b) ∧
    (∀ (o : Oracle) (b : JarRequest) (s1 s2 : Except String Unit),
      handlePostRequest { o with cacheStore := s1 } b =
        handlePostRequest { o with cacheStore := s2 } b) :=
  ⟨fun _ => rfl, cacheZip_absorbs,
   handlePostRequest_lookup_failure_is_miss,
   handlePostRequest_store_independent⟩

/-- C8 (counterexample): a malformed (unparseable) POST body is answered
with a 500, not with a 400 — `request.json()` throws inside the handler
and the top-level catch converts it. -/
theorem claim_C8_counterexample :
    resultStatus (workerFetch testOracle "POST"
        (.error "Unexpected end of JSON input")).result = some 500 ∧
      resultStatus (workerFetch testOracle "POST"
        (.error "Unexpected end of JSON input")).result ≠ some 400 := by
  refine ⟨by decide, by decide⟩

/-- C8 (amended): a malformed POST body yields a 500 whose text wraps
the parse error, while the structured validation failures (here: the
missing/empty files array) yield a 400 with a specific reason. -/
theorem claim_C8_theorem :
    (∀ (o : Oracle) (e : String),
      workerFetch o "POST" (.error e) =
        { result := .ok (resp500 e), fetched := [], background := none }) ∧
    (∀ (o : Oracle) (zf : Option String),
      handlePostRequest o { files := none, zipFilename := zf } =
        { result := .ok (resp400 "Invalid request: files array is required"),
          fetched := [], background := none }) :=
  ⟨fun _ _ => rfl, fun _ _ => rfl⟩

/-- C9 (counterexample): the 405 method-not-allowed response carries no
headers at all, in particular no CORS header. -/
theorem claim_C9_counterexample :
    (workerFetch testOracle "GET" (.error "")).result = .ok methodNotAllowedResponse ∧
    corsHeader ∉ methodNotAllowedResponse.headers := by
  refine ⟨by decide, by decide⟩

/-- C9 (amended): every response the worker produces other than the 405
method-not-allowed response — preflight, success, every 400 and the 500
— carries the permissive CORS header. -/
theorem claim_C9_theorem (o : Oracle) (method : String)
    (pb : Except String JarRequest) (r : Response)
    (h : (workerFetch o method pb).result = .ok r) (h405 : r.status ≠ 405) :
    corsHeader ∈ r.headers := by
  unfold workerFetch at h
  split at h
  · rw [← Except.ok.inj h]
    decide
  · split at h
    · split at h
      · rw [← Except.ok.inj h]
        simp [resp500]
      · dsimp only at h
        split at h
        · rw [← Except.ok.inj h]
          simp [resp500]
        · exact handlePostRequest_ok_cors h
    · rw [← Except.ok.inj h] at h405
      exact absurd rfl h405

/-- C9 (witness): the preflight response carries the CORS header. -/
theorem claim_C9_witness : corsHeader ∈ preflightResponse.headers :=
  claim_C9_theorem testOracle "OPTIONS" (.error "") preflightResponse
    (by decide) (by decide)

/-- C10: the validation loop returns one entry per input entry, so on any
non-empty files array it yields a non-empty validated list, and the
`No valid files provided` branch can never answer a request. -/
theorem claim_C10_theorem :
    (∀ (p : String → Option String) (l vs : List FileEntry),
      validateFiles p l = .ok vs → vs.length = l.length) ∧
    (∀ (o : Oracle) (b : JarRequest),
      (handlePostRequest o b).result ≠ .ok noValidFilesResponse) := by
  refine ⟨fun p l vs h => validateFiles_ok_length h, ?_⟩
  intro o b h
  unfold handlePostRequest at h
  cases hb : b.files with
  | none =>
    rw [hb] at h
    dsimp only at h
    exact absurd (Except.ok.inj h) (by decide)
  | some files =>
    rw [hb] at h
    dsimp only at h
    split at h
    · exact absurd (Except.ok.inj h) (by decide)
    · rename_i hne
      split at h
      · rename_i r' hv
        obtain ⟨f, _, hfe⟩ := validateFiles_error_src hv
        exact validateFile_error_ne_noValid hfe (Except.ok.inj h)
      · rename_i vs hv
        split at h
        · rename_i hlen
          rw [validateFiles_ok_length hv] at hlen
          rcases files with - | ⟨g, rest⟩
          · exact hne rfl
          · exact absurd hlen (by simp)
        · split at h
          · have := congrArg Response.status (Except.ok.inj h)
            simp [createZipResponse, noValidFilesResponse, resp400] at this
          · split at h
            · exact absurd h (by simp)
            · have := congrArg Response.status (Except.ok.inj h)
              simp [createZipResponse, noValidFilesResponse, resp400] at this

/-- C10 (witness): a concrete one-entry request is validated to exactly
one normalized entry, and a concrete request is never answered by the
`No valid files provided` branch. -/
theorem claim_C10_witness :
    ([{ url := entryG.url, filename := "g.jar" }] : List FileEntry).length =
        ([entryGRaw] : List FileEntry).length ∧
      (handlePostRequest testOracle
        { files := some [badEntry], zipFilename := some "z.zip" }).result ≠
        .ok noValidFilesResponse :=
  ⟨claim_C10_theorem.1 testParseProtocol [entryGRaw]
      [{ url := entryG.url, filename := "g.jar" }] (by decide),
   claim_C10_theorem.2 testOracle
     { files := some [badEntry], zipFilename := some "z.zip" }⟩

end ZipSmith
